import Mathlib

set_option linter.unusedVariables false

/-!
# Verification of the fs_utils directory-change watcher

Shallow embedding, in Lean 4, of the change-detection core of the
`py-garden/fs_utils` repository (`src/main.py` and
`src/directory_modifiction_callback_system.py`), together with proofs of
the specified properties.

Modelling conventions:

* A Python `Dict[str, float]` is modelled as an association list
  `List (String × ℚ)` whose entries appear in insertion order, exactly
  as Python dict iteration exposes them.  `dict_get` mirrors
  `dict.get` (first matching key), `dict_mem` mirrors the `in`
  operator on a dict, and `dict_set` mirrors `d[k] = v` (update in
  place if the key exists, else append).
* Modification timestamps (Python floats from `os.path.getmtime`) are
  modelled as rationals: the claims only use ordering and equality of
  timestamps, and binary64 floating-point values embed into ℚ
  order-faithfully.
* The filesystem seen through `os.walk` / `os.path.getmtime` /
  `os.path.isdir` is modelled as an explicit `FileSystem` record of
  those three observations.
-/

namespace FsUtils

/-- The timestamp type: `os.path.getmtime` returns a float; the code only
compares timestamps with `>` and stores them, so rationals model them
order-faithfully. -/
abbrev Timestamp := ℚ

/-- A Python `Dict[str, float]` in iteration (insertion) order. -/
abbrev ModTimes := List (String × Timestamp)

/-- `d.get(k)`: the value at the first entry whose key is `k`, if any. -/
def dict_get (d : ModTimes) (k : String) : Option Timestamp :=
  match d with
  | [] => none
  | (k', v) :: rest => if k' = k then some v else dict_get rest k

/-- `k in d`: key membership in a Python dict. -/
def dict_mem (d : ModTimes) (k : String) : Bool :=
  match d with
  | [] => false
  | (k', _) :: rest => k' = k || dict_mem rest k

/-- `d[k] = v`: update the entry for `k` in place if present, else append. -/
def dict_set (d : ModTimes) (k : String) (v : Timestamp) : ModTimes :=
  match d with
  | [] => [(k, v)]
  | (k', v') :: rest => if k' = k then (k, v) :: rest else (k', v') :: dict_set rest k v

/-- The key list of a dict, in iteration order. -/
def dict_keys (d : ModTimes) : List String := d.map Prod.fst

/-- Embedding of `find_modified_files(last_mod_times, current_mod_times)`
(`src/main.py` lines 232–251; the copy in
`src/directory_modifiction_callback_system.py` lines 34–42 is identical):
iterate over `current_mod_times.items()`, look the path up in
`last_mod_times` with `.get`, and keep it when the lookup misses
(`last_time is None`) or `current_time > last_time`. -/
def find_modified_files (last_mod_times current_mod_times : ModTimes) : List String :=
  match current_mod_times with
  | [] => []
  | (filepath, current_time) :: rest =>
    match dict_get last_mod_times filepath with
    | none => filepath :: find_modified_files last_mod_times rest
    | some last_time =>
      if current_time > last_time then
        filepath :: find_modified_files last_mod_times rest
      else
        find_modified_files last_mod_times rest

/-- Embedding of `find_new_files(last_mod_times, current_mod_times)`
(`src/main.py` lines 253–271): iterate over the keys of
`current_mod_times` and keep those with `filepath not in last_mod_times`. -/
def find_new_files (last_mod_times current_mod_times : ModTimes) : List String :=
  match current_mod_times with
  | [] => []
  | (filepath, _) :: rest =>
    if dict_mem last_mod_times filepath then
      find_new_files last_mod_times rest
    else
      filepath :: find_new_files last_mod_times rest

/-! ## The path filter (`make_regex_filter`, `src/main.py` lines 167–182)

Python compiles each pattern with `re.compile` and tests it with
`pattern.search(path)`. The embedding restricts regular expressions to the
fragment needed here — literal characters, `.` (any character) and the `$`
end anchor — with genuine search semantics: a pattern matches a string iff
it matches starting at some position of the string. -/

/-- One atom of a compiled regular expression. -/
inductive RAtom where
  | lit (c : Char)
  | dot
  | anchorEnd
deriving DecidableEq

/-- A compiled regular expression: a sequence of atoms. -/
abbrev Pattern := List RAtom

/-- Does the pattern match a prefix of the character list (matching at this
position)? An exhausted pattern matches; `$` requires the rest of the
string to be empty. -/
def matchAtomsFrom : Pattern → List Char → Bool
  | [], _ => true
  | .anchorEnd :: ps, s => s.isEmpty && matchAtomsFrom ps s
  | .lit _ :: _, [] => false
  | .lit c :: ps, x :: xs => x = c && matchAtomsFrom ps xs
  | .dot :: _, [] => false
  | .dot :: ps, _ :: xs => matchAtomsFrom ps xs

/-- Search a pattern in a character list: try to match at the current
position, else advance one character (also trying the empty position at the
very end, as `re.search` does). -/
def searchFrom (r : Pattern) : List Char → Bool
  | [] => matchAtomsFrom r []
  | c :: cs => matchAtomsFrom r (c :: cs) || searchFrom r cs

/-- `r.search(path)` of a compiled pattern `r`: true iff `r` matches
somewhere inside `path`. -/
def re_search (r : Pattern) (path : String) : Bool :=
  searchFrom r path.toList

/-- Embedding of `make_regex_filter(whitelist, blacklist)` (`src/main.py`
lines 167–182): the returned predicate rejects the path when no whitelist
pattern search succeeds, then rejects it when some blacklist pattern search
succeeds, and accepts it otherwise. -/
def make_regex_filter (whitelist blacklist : List Pattern) : String → Bool :=
  fun path =>
    if !(whitelist.any fun r => re_search r path) then false
    else if blacklist.any fun r => re_search r path then false
    else true

/-- The default value of the `path_filter` parameter of
`get_modification_times` (`src/main.py` line 187): `lambda _: True`. -/
def default_path_filter : String → Bool := fun _ => true

/-! ## The filesystem model and snapshot capture

The code observes the filesystem only through `os.walk`, `os.path.getmtime`
and `os.path.isdir`; a `FileSystem` records those three observations.
`os.walk` on a directory that does not exist (or is not a directory) yields
no triples at all, which the model expresses by `walk` returning `[]`
there. -/

/-- The filesystem as the program observes it: `walk d` is the list of
`(root, filenames)` pairs that `os.walk(d)` yields (the `dirs` component is
never used by this code), `getmtime p` is `os.path.getmtime(p)`, and
`isdir d` is `os.path.isdir(d)`. -/
structure FileSystem where
  walk : String → List (String × List String)
  getmtime : String → Timestamp
  isdir : String → Bool

/-- Does the string end with a path separator? -/
def ends_with_sep (s : String) : Bool :=
  match s.toList.getLast? with
  | some c => c = '/'
  | none => false

/-- `os.path.join(root, filename)` for a plain filename, POSIX rules:
insert a separator unless one is already there. -/
def os_path_join (root filename : String) : String :=
  if root = "" then filename
  else if ends_with_sep root then root ++ filename
  else root ++ "/" ++ filename

/-- Embedding of `get_modification_times(directory, path_filter)`
(`src/main.py` lines 185–207): walk the tree, and for each file whose full
path passes the filter, record its modification time. Note the source
performs no existence or directory check on `directory`. -/
def get_modification_times (fs : FileSystem) (directory : String)
    (path_filter : String → Bool := default_path_filter) : ModTimes :=
  (fs.walk directory).foldl
    (fun mod_times entry =>
      entry.2.foldl
        (fun mt filename =>
          let filepath := os_path_join entry.1 filename
          if path_filter filepath then dict_set mt filepath (fs.getmtime filepath)
          else mt)
        mod_times)
    []

/-- A filesystem with no directories and no files: every walk yields
nothing and `isdir` is false everywhere. -/
def fs_missing : FileSystem where
  walk := fun _ => []
  getmtime := fun _ => 0
  isdir := fun _ => false

/-! ## The snapshot store (`src/main.py` lines 209–230)

`save_mod_times` writes the mapping with `json.dump`; `load_last_mod_times`
returns `{}` when the file does not exist and otherwise returns whatever
`json.load` produces, with no validation of its shape. The byte-level
encoding done by the Python `json` standard library (an external
collaborator of this code) is modelled at the value level: a file on disk
either holds a JSON value or holds text that is not valid JSON, in which
case `json.load` raises `json.JSONDecodeError`. -/

/-- The default snapshot location (`src/main.py` line 165). -/
def BASE_DIR_LAST_MOD_FILE : String := ".base_dir_last_modified.json"

/-- A JSON value, as `json.load` can produce it. -/
inductive Json where
  | null
  | bool (b : Bool)
  | num (q : ℚ)
  | str (s : String)
  | arr (elems : List Json)
  | obj (entries : List (String × Json))

/-- The contents of one stored file: text that is not valid JSON, or a JSON
value. -/
inductive StoredFile where
  | invalidText
  | jsonText (j : Json)

/-- The error `json.load` raises on invalid text. -/
inductive LoadError where
  | jsonDecodeError
deriving DecidableEq

/-- The persistent store: file path to contents, `none` when the file does
not exist (`os.path.exists` returns False). -/
def JsonStore := String → Option StoredFile

/-- The JSON value `json.dump` writes for a `Dict[str, float]`: an object
with the same keys in the same order and numeric values. -/
def json_of_mod_times (mod_times : ModTimes) : Json :=
  Json.obj (mod_times.map fun kv => (kv.1, Json.num kv.2))

/-- The numeric value of a JSON value, if it is a number. -/
def q_of_json : Json → Option Timestamp
  | .num q => some q
  | _ => none

/-- Read JSON object entries back as a path-to-timestamp mapping, failing
if any value is not a number. -/
def mod_times_of_entries : List (String × Json) → Option ModTimes
  | [] => some []
  | (k, v) :: rest =>
    match q_of_json v, mod_times_of_entries rest with
    | some q, some r => some ((k, q) :: r)
    | _, _ => none

/-- Read a JSON value back as a path-to-timestamp mapping, failing if it is
not an object of numbers. (The source never performs this check; it is the
spec's "expected structure".) -/
def mod_times_of_json : Json → Option ModTimes
  | .obj entries => mod_times_of_entries entries
  | _ => none

/-- Embedding of `load_last_mod_times(mod_times_path)` (`src/main.py`
lines 209–220): if the file exists, return the result of `json.load` —
whatever JSON value is there, unvalidated, or `json.JSONDecodeError` on
invalid text; otherwise return the empty dict. -/
def load_last_mod_times (store : JsonStore)
    (mod_times_path : String := BASE_DIR_LAST_MOD_FILE) : Except LoadError Json :=
  match store mod_times_path with
  | some .invalidText => .error .jsonDecodeError
  | some (.jsonText j) => .ok j
  | none => .ok (Json.obj [])

/-- Embedding of `save_mod_times(mod_times, mod_times_path)`
(`src/main.py` lines 222–230): overwrite the file at `mod_times_path` with
the `json.dump` of the mapping. -/
def save_mod_times (mod_times : ModTimes) (store : JsonStore)
    (mod_times_path : String := BASE_DIR_LAST_MOD_FILE) : JsonStore :=
  fun loc =>
    if loc = mod_times_path then some (.jsonText (json_of_mod_times mod_times))
    else store loc

/-- A store whose snapshot file exists and holds valid JSON that is not a
path-to-timestamp object. -/
def wrong_shape_store : JsonStore := fun loc =>
  if loc = BASE_DIR_LAST_MOD_FILE then some (.jsonText (Json.arr [Json.num 1]))
  else none

/-- A store whose snapshot file exists but holds text that is not valid
JSON. -/
def invalid_text_store : JsonStore := fun loc =>
  if loc = BASE_DIR_LAST_MOD_FILE then some .invalidText
  else none

/-! ## The watch loop (`src/directory_modifiction_callback_system.py`)

That file carries its own copies of `get_modification_times` (without the
filter parameter), `load_last_mod_times` and `save_mod_times` (fixed to the
default location), and an identical copy of `find_modified_files` (embedded
once above). The loop body reads the module-level global `args` (the
argparse result, absent from this file) and calls
`copy_specific_files_to_the_generated_directory`, which is defined nowhere
in the repository; following the spec (§6), the former is modelled as an
explicit configuration record and the latter as an external copy-pipeline
action emitted into the trace. Console output, the copy call, a callback
invocation and `time.sleep` are modelled as emitted actions; messages whose
text interpolates runtime values are modelled by fixed tags. The unbounded
`while True` loop is modelled with an explicit number of cycles. -/

namespace Dmcs

/-- The module-level `args` global of the script: the relevant fields are
`args.base_dir` and `args.gen_dir`. Modelled from the spec: the
configuration is supplied by the surrounding application. -/
structure Args where
  base_dir : String
  gen_dir : String
deriving DecidableEq

/-- One observable side effect of the loop. `callback files` is the action
of invoking the supplied `modification_callback`; the embedding provides it
so a theorem can state whether the loop ever performs it. -/
inductive Action where
  | print (s : String)
  | copy_files (files : List String) (base_dir gen_dir : String)
  | callback (files : List String)
  | sleep (seconds : Nat)
deriving DecidableEq

/-- Is this action an invocation of the modification callback? -/
def Action.is_callback : Action → Bool
  | .callback _ => true
  | _ => false

/-- The loop-local store: contents of the snapshot file at the fixed
default location, already parsed (`none` when the file does not exist). -/
abbrev LoopStore := Option ModTimes

/-- Embedding of this script's `get_modification_times(directory)`
(`src/directory_modifiction_callback_system.py` lines 14–20): like the
main one but with no filter. -/
def get_modification_times (fs : FileSystem) (directory : String) : ModTimes :=
  (fs.walk directory).foldl
    (fun mod_times entry =>
      entry.2.foldl
        (fun mt filename =>
          let filepath := os_path_join entry.1 filename
          dict_set mt filepath (fs.getmtime filepath))
        mod_times)
    []

/-- Embedding of this script's `load_last_mod_times()` (lines 22–27): the
stored mapping, or the empty dict when the file does not exist. -/
def load_last_mod_times (store : LoopStore) : ModTimes := store.getD []

/-- Embedding of this script's `save_mod_times(mod_times)` (lines 29–32). -/
def save_mod_times (mod_times : ModTimes) : LoopStore := some mod_times

/-- Embedding of `save_mod_times_for_base_dir(base_dir)` (lines 44–58):
reload the previous snapshot, recapture, report the diff on the console,
and save the fresh capture. -/
def save_mod_times_for_base_dir (fs : FileSystem) (base_dir : String)
    (store : LoopStore) : List Action × LoopStore :=
  let last_mod_times := load_last_mod_times store
  let current_mod_times := get_modification_times fs base_dir
  let modified_files := FsUtils.find_modified_files last_mod_times current_mod_times
  let msgs :=
    if modified_files.isEmpty then
      [Action.print "No files have been modified since last check."]
    else
      Action.print "Modified files since last check:" :: modified_files.map Action.print
  (msgs, save_mod_times current_mod_times)

/-- Embedding of the body of the `while True` loop of
`start_watching_directory` (lines 66–83). The received
`modification_callback` is listed here exactly as in the source: the source
body never references it. -/
def watch_cycle (fs : FileSystem) (args : Args)
    (modification_callback : List String → Action) (store : LoopStore) :
    List Action × LoopStore :=
  let base_dir_last_modified_times := load_last_mod_times store
  let base_dir_current_modified_times := get_modification_times fs args.base_dir
  let modified_files :=
    FsUtils.find_modified_files base_dir_last_modified_times base_dir_current_modified_times
  if modified_files.isEmpty then
    ([Action.print "No files have been modified since last check.", Action.sleep 1], store)
  else
    let (save_msgs, store2) := save_mod_times_for_base_dir fs args.base_dir store
    (Action.print "Modified files since last check:" :: modified_files.map Action.print
      ++ [Action.print "Now converting",
          Action.copy_files modified_files args.base_dir args.gen_dir,
          Action.print "copied files"]
      ++ save_msgs ++ [Action.sleep 1], store2)

/-- The `while True` loop run for a given number of cycles, concatenating
the emitted actions. -/
def watch_loop (fs : FileSystem) (args : Args)
    (modification_callback : List String → Action) :
    Nat → LoopStore → List Action × LoopStore
  | 0, store => ([], store)
  | fuel + 1, store =>
    let (acts, store2) := watch_cycle fs args modification_callback store
    let (acts2, store3) := watch_loop fs args modification_callback fuel store2
    (acts ++ acts2, store3)

/-- The startup error message of `start_watching_directory` (line 63),
with the contraction spelled out. -/
def watch_error_message : String :=
  "Error: gen dir does not exist, first run the program in non devel mode first"

/-- Embedding of `start_watching_directory(watch_directory,
modification_callback)` (lines 61–84): report an error and stop when the
watch directory is not a directory, else run the polling loop. -/
def start_watching_directory (fs : FileSystem) (args : Args)
    (watch_directory : String) (modification_callback : List String → Action)
    (fuel : Nat) (store : LoopStore) : List Action × LoopStore :=
  if !fs.isdir watch_directory then
    ([Action.print watch_error_message], store)
  else
    watch_loop fs args modification_callback fuel store

end Dmcs

/-- A filesystem with a single directory `/base` holding one file
`a.txt` with modification time 5. -/
def fs_one : FileSystem where
  walk := fun d => if d = "/base" then [("/base", ["a.txt"])] else []
  getmtime := fun _ => 5
  isdir := fun d => d = "/base"

/-- Concrete configuration for the watch-loop scenarios. -/
def args_one : Dmcs.Args := ⟨"/base", "/gen"⟩

/-! ## Basic dict lemmas -/

theorem dict_mem_false_iff_get_none (d : ModTimes) (k : String) :
    dict_mem d k = false ↔ dict_get d k = none := by
  induction d with
  | nil => simp [dict_mem, dict_get]
  | cons kv rest ih =>
    obtain ⟨k', v⟩ := kv
    by_cases h : k' = k <;> simp [dict_mem, dict_get, h, ih]

theorem dict_mem_iff_mem_keys (d : ModTimes) (k : String) :
    dict_mem d k = true ↔ k ∈ dict_keys d := by
  induction d with
  | nil => simp [dict_mem, dict_keys]
  | cons kv rest ih =>
    obtain ⟨k', v⟩ := kv
    have hk : dict_keys ((k', v) :: rest) = k' :: dict_keys rest := rfl
    rw [hk]
    simp only [dict_mem, Bool.or_eq_true, decide_eq_true_eq, ih, List.mem_cons]
    exact or_congr_left eq_comm

theorem dict_get_none_iff_not_mem_keys (d : ModTimes) (k : String) :
    dict_get d k = none ↔ k ∉ dict_keys d := by
  rw [← dict_mem_false_iff_get_none, ← dict_mem_iff_mem_keys]
  simp

theorem dict_get_eq_some_of_mem_nodup {d : ModTimes} {k : String} {t : Timestamp}
    (hd : (dict_keys d).Nodup) (h : (k, t) ∈ d) : dict_get d k = some t := by
  induction d with
  | nil => simp at h
  | cons kv rest ih =>
    obtain ⟨k', v⟩ := kv
    simp only [dict_keys, List.map_cons, List.nodup_cons] at hd
    rcases List.mem_cons.mp h with h1 | h1
    · obtain ⟨rfl, rfl⟩ := Prod.mk.injEq .. ▸ h1
      simp [dict_get]
    · have hk : k' ≠ k := by
        rintro rfl
        exact hd.1 (List.mem_map.mpr ⟨(k', t), h1, rfl⟩)
      simp [dict_get, hk, ih hd.2 h1]

theorem mem_of_dict_get_eq_some {d : ModTimes} {k : String} {t : Timestamp}
    (h : dict_get d k = some t) : (k, t) ∈ d := by
  induction d with
  | nil => simp [dict_get] at h
  | cons kv rest ih =>
    obtain ⟨k', v⟩ := kv
    by_cases hk : k' = k
    · subst hk
      simp [dict_get] at h
      simp [h]
    · simp [dict_get, hk] at h
      exact List.mem_cons_of_mem _ (ih h)

/-! ## Unfolding lemmas for the diff functions -/

theorem find_modified_files_cons_none {prev : ModTimes} {k : String} {t : Timestamp}
    (rest : ModTimes) (h : dict_get prev k = none) :
    find_modified_files prev ((k, t) :: rest) = k :: find_modified_files prev rest := by
  simp [find_modified_files, h]

theorem find_modified_files_cons_lt {prev : ModTimes} {k : String} {t lt : Timestamp}
    (rest : ModTimes) (h : dict_get prev k = some lt) (hlt : lt < t) :
    find_modified_files prev ((k, t) :: rest) = k :: find_modified_files prev rest := by
  simp [find_modified_files, h, hlt]

theorem find_modified_files_cons_ge {prev : ModTimes} {k : String} {t lt : Timestamp}
    (rest : ModTimes) (h : dict_get prev k = some lt) (hlt : ¬lt < t) :
    find_modified_files prev ((k, t) :: rest) = find_modified_files prev rest := by
  simp [find_modified_files, h, hlt]

theorem find_new_files_cons_mem {prev : ModTimes} {k : String} {t : Timestamp}
    (rest : ModTimes) (h : dict_mem prev k = true) :
    find_new_files prev ((k, t) :: rest) = find_new_files prev rest := by
  simp [find_new_files, h]

theorem find_new_files_cons_not_mem {prev : ModTimes} {k : String} {t : Timestamp}
    (rest : ModTimes) (h : dict_mem prev k = false) :
    find_new_files prev ((k, t) :: rest) = k :: find_new_files prev rest := by
  simp [find_new_files, h]

/-! ## Characterisations of the two diff functions -/

/-- Membership in `find_modified_files`, with no uniqueness assumption on
the current mapping: a path is reported iff some entry `(p, t)` of
`current` has either no previous record or a strictly larger timestamp. -/
theorem mem_find_modified_files_iff (prev cur : ModTimes) (p : String) :
    p ∈ find_modified_files prev cur ↔
      ∃ t, (p, t) ∈ cur ∧
        (dict_get prev p = none ∨ ∃ tp, dict_get prev p = some tp ∧ tp < t) := by
  induction cur with
  | nil => simp [find_modified_files]
  | cons kv rest ih =>
    obtain ⟨k, t⟩ := kv
    constructor
    · intro hmem
      rcases hget : dict_get prev k with _ | lt
      · rw [find_modified_files_cons_none rest hget] at hmem
        rcases List.mem_cons.mp hmem with rfl | h1
        · exact ⟨t, List.mem_cons_self _ _, Or.inl hget⟩
        · obtain ⟨t', ht', hc⟩ := ih.mp h1
          exact ⟨t', List.mem_cons_of_mem _ ht', hc⟩
      · by_cases hlt : lt < t
        · rw [find_modified_files_cons_lt rest hget hlt] at hmem
          rcases List.mem_cons.mp hmem with rfl | h1
          · exact ⟨t, List.mem_cons_self _ _, Or.inr ⟨lt, hget, hlt⟩⟩
          · obtain ⟨t', ht', hc⟩ := ih.mp h1
            exact ⟨t', List.mem_cons_of_mem _ ht', hc⟩
        · rw [find_modified_files_cons_ge rest hget hlt] at hmem
          obtain ⟨t', ht', hc⟩ := ih.mp hmem
          exact ⟨t', List.mem_cons_of_mem _ ht', hc⟩
    · rintro ⟨t', ht', hc⟩
      rcases List.mem_cons.mp ht' with heq | h1
      · have hp : p = k := congrArg Prod.fst heq
        have ht : t' = t := congrArg Prod.snd heq
        subst hp; subst ht
        rcases hc with hnone | ⟨tp, htp, hlt⟩
        · rw [find_modified_files_cons_none rest hnone]
          exact List.mem_cons_self _ _
        · rw [find_modified_files_cons_lt rest htp hlt]
          exact List.mem_cons_self _ _
      · have hmem : p ∈ find_modified_files prev rest := ih.mpr ⟨t', h1, hc⟩
        rcases hget : dict_get prev k with _ | lt
        · rw [find_modified_files_cons_none rest hget]
          exact List.mem_cons_of_mem _ hmem
        · by_cases hlt : lt < t
          · rw [find_modified_files_cons_lt rest hget hlt]
            exact List.mem_cons_of_mem _ hmem
          · rw [find_modified_files_cons_ge rest hget hlt]
            exact hmem

/-- Membership in `find_new_files`: a path is reported iff it is a key of
`current` and not a key of `previous`. No uniqueness assumption needed. -/
theorem mem_find_new_files_iff (prev cur : ModTimes) (p : String) :
    p ∈ find_new_files prev cur ↔ p ∈ dict_keys cur ∧ p ∉ dict_keys prev := by
  induction cur with
  | nil => simp [find_new_files, dict_keys]
  | cons kv rest ih =>
    obtain ⟨k, t⟩ := kv
    by_cases hm : dict_mem prev k
    · have hk : k ∈ dict_keys prev := (dict_mem_iff_mem_keys prev k).mp hm
      rw [find_new_files, if_pos hm]
      constructor
      · intro h
        obtain ⟨h1, h2⟩ := ih.mp h
        exact ⟨by simp [dict_keys] at h1 ⊢; exact Or.inr h1, h2⟩
      · rintro ⟨h1, h2⟩
        simp only [dict_keys, List.map_cons, List.mem_cons] at h1
        rcases h1 with rfl | h1
        · exact absurd hk h2
        · exact ih.mpr ⟨h1, h2⟩
    · have hm' : dict_mem prev k = false := by simpa using hm
      have hk : k ∉ dict_keys prev := by
        rw [← dict_mem_iff_mem_keys, hm']; simp
      rw [find_new_files, if_neg hm]
      constructor
      · intro h
        rcases List.mem_cons.mp h with rfl | h1
        · exact ⟨by simp [dict_keys], hk⟩
        · obtain ⟨h1, h2⟩ := ih.mp h1
          exact ⟨by simp [dict_keys] at h1 ⊢; exact Or.inr h1, h2⟩
      · rintro ⟨h1, h2⟩
        simp only [dict_keys, List.map_cons, List.mem_cons] at h1
        rcases h1 with rfl | h1
        · exact List.mem_cons_self _ _
        · exact List.mem_cons_of_mem _ (ih.mpr ⟨h1, h2⟩)

/-- Both diff results select their output, in order, from the keys of the
current mapping. -/
theorem find_modified_files_sublist (prev cur : ModTimes) :
    (find_modified_files prev cur).Sublist (dict_keys cur) := by
  induction cur with
  | nil => simp [find_modified_files, dict_keys]
  | cons kv rest ih =>
    obtain ⟨k, t⟩ := kv
    rcases hget : dict_get prev k with _ | lt
    · rw [find_modified_files_cons_none rest hget]; exact (ih.cons₂ k)
    · by_cases hlt : lt < t
      · rw [find_modified_files_cons_lt rest hget hlt]; exact (ih.cons₂ k)
      · rw [find_modified_files_cons_ge rest hget hlt]; exact ih.cons k

theorem find_new_files_sublist (prev cur : ModTimes) :
    (find_new_files prev cur).Sublist (dict_keys cur) := by
  induction cur with
  | nil => simp [find_new_files, dict_keys]
  | cons kv rest ih =>
    obtain ⟨k, t⟩ := kv
    rw [find_new_files]
    by_cases hm : dict_mem prev k
    · rw [if_pos hm]; exact ih.cons k
    · rw [if_neg hm]; exact (ih.cons₂ k)

/-- A key of a dict has a value retrievable by `dict_get`. -/
theorem exists_dict_get_of_mem_keys {d : ModTimes} {k : String}
    (h : k ∈ dict_keys d) : ∃ t, dict_get d k = some t := by
  rcases hget : dict_get d k with _ | t
  · exact absurd ((dict_get_none_iff_not_mem_keys d k).mp hget) (not_not_intro h)
  · exact ⟨t, rfl⟩

/-- C1: a path is in `find_modified_files previous current` iff it is a key
of `current` and either it is not a key of `previous` or its timestamp in
`current` is strictly greater than its timestamp in `previous`; in
particular a path with equal timestamps in both mappings is not reported.
The hypothesis says `current` is a genuine mapping (no duplicate keys). -/
theorem find_modified_files_correct (prev cur : ModTimes)
    (hcur : (dict_keys cur).Nodup) (p : String) :
    (p ∈ find_modified_files prev cur ↔
      p ∈ dict_keys cur ∧
        (p ∉ dict_keys prev ∨
          ∃ tp tc, dict_get prev p = some tp ∧ dict_get cur p = some tc ∧ tp < tc)) ∧
    (∀ t, dict_get prev p = some t → dict_get cur p = some t →
      p ∉ find_modified_files prev cur) := by
  have hmain : p ∈ find_modified_files prev cur ↔
      p ∈ dict_keys cur ∧
        (p ∉ dict_keys prev ∨
          ∃ tp tc, dict_get prev p = some tp ∧ dict_get cur p = some tc ∧ tp < tc) := by
    rw [mem_find_modified_files_iff]
    constructor
    · rintro ⟨t, ht, hc⟩
      refine ⟨List.mem_map.mpr ⟨(p, t), ht, rfl⟩, ?_⟩
      rcases hc with hnone | ⟨tp, htp, hlt⟩
      · exact Or.inl ((dict_get_none_iff_not_mem_keys prev p).mp hnone)
      · exact Or.inr ⟨tp, t, htp, dict_get_eq_some_of_mem_nodup hcur ht, hlt⟩
    · rintro ⟨hmem, hc⟩
      obtain ⟨t, hget⟩ := exists_dict_get_of_mem_keys hmem
      rcases hc with hnp | ⟨tp, tc, htp, htc, hlt⟩
      · exact ⟨t, mem_of_dict_get_eq_some hget,
          Or.inl ((dict_get_none_iff_not_mem_keys prev p).mpr hnp)⟩
      · exact ⟨tc, mem_of_dict_get_eq_some htc, Or.inr ⟨tp, htp, hlt⟩⟩
  refine ⟨hmain, ?_⟩
  intro t htp htc hmem
  obtain ⟨-, hc⟩ := hmain.mp hmem
  rcases hc with hnp | ⟨tp, tc, htp', htc', hlt⟩
  · exact hnp (List.mem_map.mpr ⟨(p, t), mem_of_dict_get_eq_some htp, rfl⟩)
  · rw [htp] at htp'
    rw [htc] at htc'
    obtain rfl := Option.some.injEq .. ▸ htp'
    obtain rfl := Option.some.injEq .. ▸ htc'
    exact absurd hlt (lt_irrefl t)

/-- Witness for C1 at a concrete pair of mappings: `b` changed from 2 to 3
and is reported. -/
theorem find_modified_files_correct_witness :
    "b" ∈ find_modified_files [("a", (1 : ℚ)), ("b", 2)]
      [("a", (1 : ℚ)), ("b", 3), ("c", 5)] :=
  (find_modified_files_correct [("a", (1 : ℚ)), ("b", 2)]
      [("a", (1 : ℚ)), ("b", 3), ("c", 5)] (by decide) "b").1.mpr
    ⟨by decide, Or.inr ⟨2, 3, by decide, by decide, by norm_num⟩⟩

/-- C2: a path is in `find_new_files previous current` iff it is a key of
`current` and not a key of `previous`, and every such path is also in
`find_modified_files previous current`. -/
theorem find_new_files_correct (prev cur : ModTimes) (p : String) :
    (p ∈ find_new_files prev cur ↔ p ∈ dict_keys cur ∧ p ∉ dict_keys prev) ∧
    (p ∈ find_new_files prev cur → p ∈ find_modified_files prev cur) := by
  refine ⟨mem_find_new_files_iff prev cur p, ?_⟩
  intro h
  obtain ⟨hcur, hprev⟩ := (mem_find_new_files_iff prev cur p).mp h
  obtain ⟨t, hget⟩ := exists_dict_get_of_mem_keys hcur
  exact (mem_find_modified_files_iff prev cur p).mpr
    ⟨t, mem_of_dict_get_eq_some hget,
      Or.inl ((dict_get_none_iff_not_mem_keys prev p).mpr hprev)⟩

/-- C9: a path present in `previous` but absent from `current` (a deletion)
is reported neither by `find_new_files` nor by `find_modified_files`. -/
theorem deletions_not_reported (prev cur : ModTimes) (p : String)
    (hprev : p ∈ dict_keys prev) (hcur : p ∉ dict_keys cur) :
    p ∉ find_new_files prev cur ∧ p ∉ find_modified_files prev cur :=
  ⟨fun h => hcur ((find_new_files_sublist prev cur).mem h),
   fun h => hcur ((find_modified_files_sublist prev cur).mem h)⟩

/-- Witness for C9: `a` was deleted between the two snapshots and is
reported by neither diff. -/
theorem deletions_not_reported_witness :
    "a" ∉ find_new_files [("a", (1 : ℚ))] [("b", (2 : ℚ))] ∧
    "a" ∉ find_modified_files [("a", (1 : ℚ))] [("b", (2 : ℚ))] :=
  deletions_not_reported [("a", (1 : ℚ))] [("b", (2 : ℚ))] "a" (by decide) (by decide)

/-- C10: when `current` is a genuine mapping (no duplicate keys), the lists
returned by `find_modified_files` and `find_new_files` contain no duplicate
paths. -/
theorem diff_results_nodup (prev cur : ModTimes) (hcur : (dict_keys cur).Nodup) :
    (find_modified_files prev cur).Nodup ∧ (find_new_files prev cur).Nodup :=
  ⟨hcur.sublist (find_modified_files_sublist prev cur),
   hcur.sublist (find_new_files_sublist prev cur)⟩

/-- Witness for C10 at a concrete pair of mappings. -/
theorem diff_results_nodup_witness :
    (find_modified_files [("a", (1 : ℚ))] [("a", (2 : ℚ)), ("b", 3)]).Nodup ∧
    (find_new_files [("a", (1 : ℚ))] [("a", (2 : ℚ)), ("b", 3)]).Nodup :=
  diff_results_nodup [("a", (1 : ℚ))] [("a", (2 : ℚ)), ("b", 3)] (by decide)

/-! Theorems about the path filter (C4, C5) -/

/-- Search semantics: a pattern search succeeds on a character list iff the
pattern matches starting at some position. -/
theorem searchFrom_iff_exists_drop (r : Pattern) (s : List Char) :
    searchFrom r s = true ↔ ∃ i, matchAtomsFrom r (s.drop i) = true := by
  induction s with
  | nil =>
    rw [searchFrom]
    constructor
    · intro h; exact ⟨0, h⟩
    · rintro ⟨i, h⟩; simpa using h
  | cons c cs ih =>
    rw [searchFrom, Bool.or_eq_true, ih]
    constructor
    · rintro (h | ⟨i, h⟩)
      · exact ⟨0, h⟩
      · exact ⟨i + 1, h⟩
    · rintro ⟨i, h⟩
      cases i with
      | zero => exact Or.inl h
      | succ j => exact Or.inr ⟨j, h⟩

/-- C5: the filter built by `make_regex_filter` accepts a path iff at least
one whitelist pattern search succeeds on it and no blacklist pattern search
succeeds on it (so the blacklist takes precedence), where a pattern search
succeeds iff the pattern matches at some position inside the path string
(search semantics, not full-path anchoring). -/
theorem make_regex_filter_correct (whitelist blacklist : List Pattern) (path : String) :
    (make_regex_filter whitelist blacklist path = true ↔
      ((∃ r ∈ whitelist, re_search r path = true) ∧
        ∀ r ∈ blacklist, re_search r path = false)) ∧
    (∀ r : Pattern, re_search r path = true ↔
      ∃ i, matchAtomsFrom r (path.toList.drop i) = true) := by
  constructor
  · have hval : make_regex_filter whitelist blacklist path =
        ((whitelist.any fun r => re_search r path) &&
          !(blacklist.any fun r => re_search r path)) := by
      unfold make_regex_filter
      by_cases hw : (whitelist.any fun r => re_search r path) = true <;>
        by_cases hb : (blacklist.any fun r => re_search r path) = true <;>
          simp [hw, hb]
    rw [hval]
    simp [Bool.and_eq_true, Bool.not_eq_true', List.any_eq_true, List.any_eq_false]
  · intro r
    exact searchFrom_iff_exists_drop r path.toList

/-- C4 counterexample: the filter `make_regex_filter([], [])` built from
empty include and exclude lists does not accept every path — it rejects
the path `note.txt` (an empty whitelist matches nothing, so the first check
of the filter fails). -/
theorem make_regex_filter_empty_counterexample :
    make_regex_filter [] [] "note.txt" = false := rfl

/-- C4 (amended): the default value of the `path_filter` argument of
`get_modification_times` (`lambda _: True`) accepts every path, while the
filter built by `make_regex_filter` from empty include and exclude lists
rejects every path. -/
theorem default_filter_amended (path : String) :
    default_path_filter path = true ∧ make_regex_filter [] [] path = false :=
  ⟨rfl, rfl⟩

/-! Theorems about snapshot capture and the watch loop (C3, C6) -/

/-- C3 counterexample: on a filesystem where `/nonexistent` is not a
directory, `get_modification_times` does not fail — `os.walk` yields
nothing and the function returns the empty mapping. -/
theorem capture_missing_dir_counterexample :
    fs_missing.isdir "/nonexistent" = false ∧
    get_modification_times fs_missing "/nonexistent" default_path_filter = [] :=
  ⟨rfl, rfl⟩

/-- C3 (amended): `get_modification_times` performs no existence or
directory check: whenever `os.walk` on the root yields nothing (as it does
for a missing or non-directory root), capture returns the empty mapping
rather than failing. The only directory-existence check is performed once
by `start_watching_directory`, which prints an error and never starts
polling when the watch directory is not a directory. -/
theorem capture_missing_dir_amended (fs : FileSystem) (d wd : String)
    (path_filter : String → Bool) (args : Dmcs.Args)
    (cb : List String → Dmcs.Action) (fuel : Nat) (store : Dmcs.LoopStore)
    (hwalk : fs.walk d = []) (hdir : fs.isdir wd = false) :
    get_modification_times fs d path_filter = [] ∧
    Dmcs.start_watching_directory fs args wd cb fuel store =
      ([Dmcs.Action.print Dmcs.watch_error_message], store) := by
  constructor
  · simp [get_modification_times, hwalk]
  · simp [Dmcs.start_watching_directory, hdir]

/-- Witness for the amended C3 at a concrete filesystem. -/
theorem capture_missing_dir_amended_witness :
    get_modification_times fs_missing "/nonexistent" default_path_filter = [] ∧
    Dmcs.start_watching_directory fs_missing args_one "/nonexistent"
        Dmcs.Action.callback 3 none =
      ([Dmcs.Action.print Dmcs.watch_error_message], none) :=
  capture_missing_dir_amended fs_missing "/nonexistent" "/nonexistent"
    default_path_filter args_one Dmcs.Action.callback 3 none rfl rfl

/-- C6 (code bug): one full poll cycle on a filesystem with one new file
`/base/a.txt`. The change set is non-empty, and the loop prints the
changed files, emits the copy-pipeline action, prints again while saving
via `save_mod_times_for_base_dir`, and persists the new snapshot — but no
action in the trace is an invocation of the supplied
`modification_callback`: the source body never references that parameter. -/
theorem start_watching_never_invokes_callback :
    (Dmcs.start_watching_directory fs_one args_one "/base"
        Dmcs.Action.callback 1 none).1 =
      [Dmcs.Action.print "Modified files since last check:",
       Dmcs.Action.print "/base/a.txt",
       Dmcs.Action.print "Now converting",
       Dmcs.Action.copy_files ["/base/a.txt"] "/base" "/gen",
       Dmcs.Action.print "copied files",
       Dmcs.Action.print "Modified files since last check:",
       Dmcs.Action.print "/base/a.txt",
       Dmcs.Action.sleep 1] ∧
    ((Dmcs.start_watching_directory fs_one args_one "/base"
        Dmcs.Action.callback 1 none).1.all fun a => !a.is_callback) = true ∧
    (Dmcs.start_watching_directory fs_one args_one "/base"
        Dmcs.Action.callback 1 none).2 = some [("/base/a.txt", (5 : ℚ))] := by
  refine ⟨?_, ?_, ?_⟩ <;> rfl

/-! Theorems about the snapshot store (C7, C8) -/

/-- C7: saving a mapping and loading from the same location yields exactly
the value saved: `json.load` returns the object written by `json.dump`,
and that object reads back as a path-to-timestamp mapping equal entry for
entry to the one saved. -/
theorem save_then_load_roundtrip (mod_times : ModTimes) (store : JsonStore)
    (loc : String) :
    load_last_mod_times (save_mod_times mod_times store loc) loc =
      .ok (json_of_mod_times mod_times) ∧
    mod_times_of_json (json_of_mod_times mod_times) = some mod_times := by
  constructor
  · simp [load_last_mod_times, save_mod_times]
  · induction mod_times with
    | nil => rfl
    | cons kv rest ih =>
      obtain ⟨k, v⟩ := kv
      simp only [json_of_mod_times, mod_times_of_json, List.map_cons,
        mod_times_of_entries, q_of_json] at ih ⊢
      rw [ih]

/-- C8 counterexample: a location whose record exists and is valid JSON
that is not a path-to-timestamp structure (here the array `[1]`): load
raises nothing and returns the array unvalidated instead of failing. -/
theorem load_wrong_shape_counterexample :
    wrong_shape_store BASE_DIR_LAST_MOD_FILE =
      some (StoredFile.jsonText (Json.arr [Json.num 1])) ∧
    mod_times_of_json (Json.arr [Json.num 1]) = none ∧
    load_last_mod_times wrong_shape_store BASE_DIR_LAST_MOD_FILE =
      .ok (Json.arr [Json.num 1]) :=
  ⟨rfl, rfl, rfl⟩

/-- C8 (amended): `load_last_mod_times` raises the JSON parse error when
the record exists but is not valid JSON — an outcome distinguishable from
the no-record case, which returns the empty mapping without raising — while
a record that is valid JSON of any shape is returned as-is, with no
validation against the expected path-to-timestamp structure. -/
theorem load_error_behaviour_amended (store : JsonStore) (loc : String) :
    (store loc = some StoredFile.invalidText →
      load_last_mod_times store loc = .error LoadError.jsonDecodeError) ∧
    (store loc = none → load_last_mod_times store loc = .ok (Json.obj [])) ∧
    (∀ j, store loc = some (StoredFile.jsonText j) →
      load_last_mod_times store loc = .ok j) := by
  refine ⟨fun h => ?_, fun h => ?_, fun j h => ?_⟩ <;> simp [load_last_mod_times, h]

/-- Witness for the amended C8: the invalid-text record raises the parse
error, while a location with no record loads as the empty mapping. -/
theorem load_error_behaviour_amended_witness :
    load_last_mod_times invalid_text_store BASE_DIR_LAST_MOD_FILE =
      .error LoadError.jsonDecodeError ∧
    load_last_mod_times invalid_text_store "other.json" = .ok (Json.obj []) :=
  ⟨(load_error_behaviour_amended invalid_text_store BASE_DIR_LAST_MOD_FILE).1 rfl,
   (load_error_behaviour_amended invalid_text_store "other.json").2.1 rfl⟩

end FsUtils
